import Mathlib

/-!
Shallow embedding of the Module Registry / Output Panel / submission
pipeline of the research-agent frontend
(`frontend/modules/module-registry.js`, the Output Panel component, and
`frontend/app.js`), together with theorems settling the spec claims.

JavaScript `Map` objects are embedded as association lists in insertion
order: `Map.set` overwrites the entry of an existing key in place and
appends a fresh key at the end; `Map.get` returns the stored value or
`none`; `Map.prototype.values()` enumerates values in insertion order.
-/

namespace JsMap

/-- `Map.set`: replace the value stored under `k` in place when the key
is present, otherwise append the pair at the end (insertion order). -/
def mapSet {α : Type} : List (String × α) → String → α → List (String × α)
  | [], k, v => [(k, v)]
  | p :: rest, k, v => if p.1 = k then (k, v) :: rest else p :: mapSet rest k v

/-- `Map.get`: the value stored under `k`, or `none`. -/
def mapGet {α : Type} : List (String × α) → String → Option α
  | [], _ => none
  | p :: rest, k => if p.1 = k then some p.2 else mapGet rest k

theorem mapGet_mapSet {α : Type} (m : List (String × α)) (k k' : String) (v : α) :
    mapGet (mapSet m k v) k' = if k' = k then some v else mapGet m k' := by
  induction m with
  | nil => simp [mapSet, mapGet]; split <;> simp_all [eq_comm]
  | cons p rest ih =>
    by_cases hpk : p.1 = k
    · by_cases hk : k' = k
      · subst hk; simp [mapSet, mapGet, hpk]
      · have h1 : ¬ k = k' := fun h => hk h.symm
        have h2 : ¬ p.1 = k' := hpk ▸ h1
        simp [mapSet, mapGet, hpk, hk, h1, h2]
    · by_cases hpk' : p.1 = k'
      · have hk : ¬ k' = k := fun h => hpk (h ▸ hpk')
        simp [mapSet, mapGet, hpk, hpk', hk]
      · simp [mapSet, mapGet, hpk, hpk', ih]

theorem mapSet_fresh {α : Type} (m : List (String × α)) (k : String) (v : α)
    (h : mapGet m k = none) : mapSet m k v = m ++ [(k, v)] := by
  induction m with
  | nil => simp [mapSet]
  | cons p rest ih =>
    by_cases hpk : p.1 = k
    · simp [mapGet, hpk] at h
    · simp [mapGet, hpk] at h
      simp [mapSet, hpk, ih h]

theorem mapSet_replace {α : Type} (pre post : List (String × α)) (k : String)
    (old v : α) (hpre : ∀ q ∈ pre, q.1 ≠ k) :
    mapSet (pre ++ (k, old) :: post) k v = pre ++ (k, v) :: post := by
  induction pre with
  | nil => simp [mapSet]
  | cons p rest ih =>
    have hp : p.1 ≠ k := hpre p (by simp)
    simp [mapSet, hp]
    exact ih fun q hq => hpre q (by simp [hq])

theorem mapGet_append {α : Type} (m₁ m₂ : List (String × α)) (k : String) :
    mapGet (m₁ ++ m₂) k = match mapGet m₁ k with
      | some v => some v
      | none => mapGet m₂ k := by
  induction m₁ with
  | nil => simp [mapGet]
  | cons p rest ih =>
    by_cases hpk : p.1 = k <;> simp [mapGet, hpk, ih]

end JsMap

open JsMap

/-! ## Module Registry (`frontend/modules/module-registry.js`)

A module configuration object.  `id` and `name` may be absent
(`undefined` in JS) or present; JS truthiness of a string field means
"present and not the empty string".  The remaining descriptor payload
(display metadata, input fields, output tabs, handlers) is opaque for
registry purposes and is carried as a `payload` tag so that distinct
descriptors can be told apart. -/
structure ModuleConfig where
  id : Option String
  name : Option String
  payload : Nat
deriving DecidableEq

/-- JS truthiness of an optional string: falsy when absent or `""`. -/
def truthyStr : Option String → Bool
  | none => false
  | some s => s != ""

/-- The guard `!config.id || !config.name` in `register`, negated. -/
def validConfig (c : ModuleConfig) : Bool :=
  truthyStr c.id && truthyStr c.name

/-- The `Map` key used by `register` (only meaningful for valid configs). -/
def configKey (c : ModuleConfig) : String :=
  c.id.getD ""

/-- Registry state: the `modules` map plus the console log trail
(`console.error` / `console.log` lines emitted by `register`). -/
structure Registry where
  modules : List (String × ModuleConfig)
  log : List String
deriving DecidableEq

namespace ModuleRegistry

/-- The empty registry (`modules: new Map()`). -/
def empty : Registry := ⟨[], []⟩

/-- `ModuleRegistry.register(config)`: log an error and return when `id`
or `name` is missing/falsy; otherwise store under `config.id` and log
success. -/
def register (r : Registry) (c : ModuleConfig) : Registry :=
  if validConfig c then
    { modules := mapSet r.modules (configKey c) c,
      log := r.log ++ ["Module registered: " ++ c.name.getD ""] }
  else
    { r with log := r.log ++ ["Module registration failed: Missing id or name"] }

/-- `ModuleRegistry.get(id)`. -/
def get (r : Registry) (id : String) : Option ModuleConfig :=
  mapGet r.modules id

/-- `ModuleRegistry.getAll()`: `Array.from(this.modules.values())`. -/
def getAll (r : Registry) : List ModuleConfig :=
  r.modules.map (·.2)

/-- Folding a whole sequence of `register` calls over the empty registry. -/
def registerAll (cs : List ModuleConfig) : Registry :=
  cs.foldl register empty

end ModuleRegistry

theorem find?_append_eq {α : Type} (p : α → Bool) (l₁ l₂ : List α) :
    (l₁ ++ l₂).find? p = match l₁.find? p with
      | some x => some x
      | none => l₂.find? p := by
  induction l₁ with
  | nil => simp
  | cons a l ih => by_cases h : p a <;> simp [List.find?, h, ih]

theorem get_register (r : Registry) (c : ModuleConfig) (i : String)
    (hc : validConfig c = true) :
    ModuleRegistry.get (ModuleRegistry.register r c) i =
      if c.id = some i then some c else ModuleRegistry.get r i := by
  cases hid : c.id with
  | none => simp [validConfig, truthyStr, hid] at hc
  | some s =>
    simp only [ModuleRegistry.register, hc, if_pos, ModuleRegistry.get,
      mapGet_mapSet, configKey, hid, Option.getD_some]
    by_cases h : i = s
    · subst h; simp
    · have h2 : ¬ s = i := fun hh => h hh.symm
      simp [h, h2]

theorem get_registerAll_aux (cs : List ModuleConfig) (r : Registry)
    (hv : ∀ c ∈ cs, validConfig c = true) (i : String) :
    ModuleRegistry.get (cs.foldl ModuleRegistry.register r) i =
      match cs.reverse.find? (fun c => c.id == some i) with
      | some c => some c
      | none => ModuleRegistry.get r i := by
  induction cs generalizing r with
  | nil => simp
  | cons c cs ih =>
    have hc := hv c (by simp)
    have hcs : ∀ d ∈ cs, validConfig d = true := fun d hd => hv d (by simp [hd])
    simp only [List.foldl_cons, List.reverse_cons]
    rw [ih _ hcs, find?_append_eq, get_register _ _ _ hc]
    cases hfind : cs.reverse.find? (fun c => c.id == some i) with
    | some d => simp
    | none =>
      by_cases h : c.id = some i
      · have hb : (c.id == some i) = true := by simp [h]
        simp [List.find?, hb, h]
      · have hb : (c.id == some i) = false := by simp [h]
        simp [List.find?, hb, h]

theorem registerAll_modules_aux (cs : List ModuleConfig) (r : Registry)
    (hv : ∀ c ∈ cs, validConfig c = true)
    (hfresh : ∀ c ∈ cs, mapGet r.modules (configKey c) = none)
    (hnodup : (cs.map configKey).Nodup) :
    (cs.foldl ModuleRegistry.register r).modules =
      r.modules ++ cs.map (fun c => (configKey c, c)) := by
  induction cs generalizing r with
  | nil => simp
  | cons c cs ih =>
    have hc := hv c (by simp)
    have hmod : (ModuleRegistry.register r c).modules =
        r.modules ++ [(configKey c, c)] := by
      simp [ModuleRegistry.register, hc, mapSet_fresh _ _ _ (hfresh c (by simp))]
    simp only [List.map_cons, List.nodup_cons] at hnodup
    have hfresh2 : ∀ d ∈ cs, mapGet (ModuleRegistry.register r c).modules (configKey d) = none := by
      intro d hd
      rw [hmod, mapGet_append]
      have hne : configKey c ≠ configKey d := by
        intro h
        exact hnodup.1 (h ▸ List.mem_map_of_mem configKey hd)
      simp [hfresh d (by simp [hd]), mapGet, hne]
    simp only [List.foldl_cons]
    rw [ih _ (fun d hd => hv d (by simp [hd])) hfresh2 hnodup.2, hmod]
    simp

/-- C1: over any sequence of `register` calls of well-formed descriptors,
`get(id)` returns the most recently registered descriptor carrying that
`id`; for sequences with pairwise-distinct ids, `getAll()` returns exactly
the registered descriptors in registration order; and a `register` call on
an already-used id succeeds, logging the ordinary success line rather than
any duplicate error. -/
theorem registry_register_get_getAll (cs : List ModuleConfig)
    (hv : ∀ c ∈ cs, validConfig c = true) :
    (∀ i : String,
       ModuleRegistry.get (ModuleRegistry.registerAll cs) i =
         cs.reverse.find? (fun c => c.id == some i))
    ∧ ((cs.map configKey).Nodup →
       ModuleRegistry.getAll (ModuleRegistry.registerAll cs) = cs)
    ∧ (∀ (r : Registry) (c : ModuleConfig), validConfig c = true →
       (ModuleRegistry.register r c).log =
         r.log ++ ["Module registered: " ++ c.name.getD ""]) := by
  refine ⟨fun i => ?_, fun hnodup => ?_, fun r c hc => ?_⟩
  · rw [ModuleRegistry.registerAll, get_registerAll_aux cs _ hv i]
    cases cs.reverse.find? (fun c => c.id == some i) <;>
      simp [ModuleRegistry.get, ModuleRegistry.empty, mapGet]
  · rw [ModuleRegistry.getAll, ModuleRegistry.registerAll,
      registerAll_modules_aux cs _ hv (by simp [ModuleRegistry.empty, mapGet]) hnodup]
    simp only [ModuleRegistry.empty, List.map_map, List.nil_append]
    have hcomp : ((fun x : String × ModuleConfig => x.2) ∘ fun c => (configKey c, c)) = id := rfl
    rw [hcomp, List.map_id]
  · simp [ModuleRegistry.register, hc]

/-- Witness for C1 on a concrete two-module registration sequence. -/
theorem registry_register_get_getAll_witness :
    ModuleRegistry.get
        (ModuleRegistry.registerAll
          [⟨some "a", some "A", 0⟩, ⟨some "b", some "B", 1⟩]) "b"
      = some ⟨some "b", some "B", 1⟩
    ∧ ModuleRegistry.getAll
        (ModuleRegistry.registerAll
          [⟨some "a", some "A", 0⟩, ⟨some "b", some "B", 1⟩])
      = [⟨some "a", some "A", 0⟩, ⟨some "b", some "B", 1⟩] := by
  have h := registry_register_get_getAll
    [⟨some "a", some "A", 0⟩, ⟨some "b", some "B", 1⟩] (by decide)
  exact ⟨(h.1 "b").trans (by decide), h.2.1 (by decide)⟩

/-- C7: `register` on a config with missing (or empty) `id` or `name`
logs the error line and leaves the module mapping unchanged; being a
total function of the state, it throws nothing. -/
theorem register_missing_id_or_name (r : Registry) (c : ModuleConfig)
    (h : validConfig c = false) :
    (ModuleRegistry.register r c).modules = r.modules
    ∧ (ModuleRegistry.register r c).log =
        r.log ++ ["Module registration failed: Missing id or name"] := by
  simp [ModuleRegistry.register, h]

/-- Witness for C7: a config with no `id` is rejected without touching
the mapping. -/
theorem register_missing_id_or_name_witness :
    (ModuleRegistry.register ModuleRegistry.empty ⟨none, some "X", 0⟩).modules
        = ModuleRegistry.empty.modules
    ∧ (ModuleRegistry.register ModuleRegistry.empty ⟨none, some "X", 0⟩).log =
        ModuleRegistry.empty.log ++ ["Module registration failed: Missing id or name"] :=
  register_missing_id_or_name ModuleRegistry.empty ⟨none, some "X", 0⟩ (by decide)

/-- C9: re-registering a descriptor under an id already present replaces
the stored descriptor in place: `getAll()` still lists it at the position
of the id's first registration, not at the end. -/
theorem reregister_keeps_position (pre post : List (String × ModuleConfig))
    (r : Registry) (old c : ModuleConfig) (i : String)
    (hmod : r.modules = pre ++ (i, old) :: post)
    (hpre : ∀ q ∈ pre, q.1 ≠ i)
    (hc : validConfig c = true) (hid : c.id = some i) :
    (ModuleRegistry.register r c).modules = pre ++ (i, c) :: post
    ∧ ModuleRegistry.getAll (ModuleRegistry.register r c) =
        pre.map (·.2) ++ c :: post.map (·.2) := by
  have hkey : configKey c = i := by simp [configKey, hid]
  refine ⟨?_, ?_⟩
  · simp [ModuleRegistry.register, hc, hmod, hkey, mapSet_replace _ _ _ _ _ hpre]
  · simp [ModuleRegistry.getAll, ModuleRegistry.register, hc, hmod, hkey,
      mapSet_replace _ _ _ _ _ hpre]

/-- Witness for C9: re-registering id `"a"` in a two-entry registry keeps
it in first position with the new descriptor. -/
theorem reregister_keeps_position_witness :
    (ModuleRegistry.register
        ⟨[("a", ⟨some "a", some "A", 0⟩), ("b", ⟨some "b", some "B", 1⟩)], []⟩
        ⟨some "a", some "A2", 2⟩).modules
      = [("a", ⟨some "a", some "A2", 2⟩), ("b", ⟨some "b", some "B", 1⟩)]
    ∧ ModuleRegistry.getAll
        (ModuleRegistry.register
          ⟨[("a", ⟨some "a", some "A", 0⟩), ("b", ⟨some "b", some "B", 1⟩)], []⟩
          ⟨some "a", some "A2", 2⟩)
      = [⟨some "a", some "A2", 2⟩, ⟨some "b", some "B", 1⟩] :=
  reregister_keeps_position [] [("b", ⟨some "b", some "B", 1⟩)] _
    ⟨some "a", some "A", 0⟩ ⟨some "a", some "A2", 2⟩ "a" rfl
    (by decide) (by decide) rfl

/-! ## Output Panel component

State of the `OutputPanel` class: the `tabs` map, the `activeTabId`
(`null` or a tab id), and whether the constructor's
`document.getElementById(containerId)` found the container element.
DOM writes and `setTimeout` callback scheduling are recorded as an
effect trace; the HTML produced by `renderContent` is modelled as the
string assigned to the content area's `innerHTML`, with the external
`marked.parse` library kept abstract as a `String → String` parameter
(`none` models `window.marked` being absent). -/

/-- JS word character (`\w` in the regex): ASCII letter, digit or `_`. -/
def isWordChar (c : Char) : Bool := c.isAlphanum || c = '_'

/-- Case-insensitive prefix test (first argument is the pattern). -/
def startsWithCI : List Char → List Char → Bool
  | [], _ => true
  | _ :: _, [] => false
  | p :: ps, c :: cs => p.toLower == c.toLower && startsWithCI ps cs

/-- Case-sensitive prefix test (first argument is the pattern). -/
def startsWithExact : List Char → List Char → Bool
  | [], _ => true
  | _ :: _, [] => false
  | p :: ps, c :: cs => p == c && startsWithExact ps cs

/-- Plain (case-sensitive) substring containment of `pat` in the second
argument. -/
def containsSub (pat : List Char) : List Char → Bool
  | [] => startsWithExact pat []
  | c :: rest => startsWithExact pat (c :: rest) || containsSub pat rest

/-- `hay` contains `pat` as a literal substring. -/
def containsSubstr (hay pat : String) : Bool := containsSub pat.toList hay.toList

/-- The `\b` word boundary sitting right after pattern `pat` inside `cs`:
the next character, if any, is not a word character. -/
def boundaryAfter (pat cs : List Char) : Bool :=
  match cs.drop pat.length with
  | [] => true
  | c :: _ => !(isWordChar c)

def selectChars : List Char := ['s', 'e', 'l', 'e', 'c', 't']
def inputChars : List Char := ['i', 'n', 'p', 'u', 't']
def buttonChars : List Char := ['b', 'u', 't', 't', 'o', 'n']
def formChars : List Char := ['f', 'o', 'r', 'm']
def textareaChars : List Char := ['t', 'e', 'x', 't', 'a', 'r', 'e', 'a']

/-- The alternatives of the form-control regex. -/
def formTagNames : List (List Char) :=
  [selectChars, inputChars, buttonChars, formChars, textareaChars]

/-- One position of the regex `/<(select|input|button|form|textarea)\b/i`:
a `<`, then one of the tag names case-insensitively, then a word
boundary. -/
def matchFormTagAt (cs : List Char) : Bool :=
  match cs with
  | '<' :: rest => formTagNames.any (fun t => startsWithCI t rest && boundaryAfter t rest)
  | _ => false

/-- `regex.test`: some position of the content matches. -/
def hasFormTag : List Char → Bool
  | [] => false
  | c :: rest => matchFormTagAt (c :: rest) || hasFormTag rest

/-- The `isHtmlForm` check of `renderContent`. -/
def isHtmlFormContent (s : String) : Bool := hasFormTag s.toList

/-- A position carrying the literal lowercase `<textarea` followed by a
word boundary (the spec's `<textarea` phrasing, sharpened by the
boundary the regex demands). -/
def matchTextareaLiteralAt (cs : List Char) : Bool :=
  startsWithExact ('<' :: textareaChars) cs && boundaryAfter textareaChars (cs.drop 1)

def hasTextareaLiteralBoundary : List Char → Bool
  | [] => false
  | c :: rest => matchTextareaLiteralAt (c :: rest) || hasTextareaLiteralBoundary rest

/-- Content contains a literal `<textarea` occurrence followed by a word
boundary. -/
def textareaBoundaryContent (s : String) : Bool :=
  hasTextareaLiteralBoundary s.toList

/-- One tab record: `{ label, icon, content: '', rawContent: '',
setupCallback: null }`.  Callbacks are opaque and identified by a tag. -/
structure Tab where
  label : String
  icon : String
  content : String
  rawContent : String
  setupCallback : Option Nat
deriving DecidableEq

structure OutputPanel where
  container : Bool
  tabs : List (String × Tab)
  activeTabId : Option String
deriving DecidableEq

/-- Observable side effects of panel methods: DOM re-renders and
`setTimeout(() => tab.setupCallback(), 50)` schedulings. -/
inductive Effect where
  | setupActionButtons
  | renderTabs
  | renderContentOf (id : String)
  | scheduleCallback (cb : Nat)
deriving DecidableEq

namespace OutputPanel

/-- `new OutputPanel(containerId)`: `found` records whether the container
element exists in the document. -/
def init (found : Bool) : OutputPanel := ⟨found, [], none⟩

/-- `clear()`: bails out when the container is missing; otherwise rewrites
the container skeleton, empties the tab map, clears the active tab and
re-wires the action buttons. -/
def clear (p : OutputPanel) : OutputPanel × List Effect :=
  if p.container then
    ({ p with tabs := [], activeTabId := none }, [Effect.setupActionButtons])
  else (p, [])

/-- `addTab(id, label, icon)`. -/
def addTab (p : OutputPanel) (id label icon : String) : OutputPanel × List Effect :=
  ({ p with
      tabs := mapSet p.tabs id ⟨label, icon, "", "", none⟩,
      activeTabId := if truthyStr p.activeTabId then p.activeTabId else some id },
   [Effect.renderTabs])

/-- `setContent(id, content, setupCallback = null)`. -/
def setContent (p : OutputPanel) (id content : String) (setupCallback : Option Nat) :
    OutputPanel × List Effect :=
  match mapGet p.tabs id with
  | none => (p, [])
  | some tab =>
    let tab1 : Tab :=
      { tab with
          rawContent := content, content := content,
          setupCallback := match setupCallback with
            | some cb => some cb
            | none => tab.setupCallback }
    let p1 : OutputPanel := { p with tabs := mapSet p.tabs id tab1 }
    if p.activeTabId = some id then
      (p1, [Effect.renderContentOf id] ++
        (match tab1.setupCallback with
         | some cb => [Effect.scheduleCallback cb]
         | none => []))
    else (p1, [])

/-- `activateTab(id)`. -/
def activateTab (p : OutputPanel) (id : String) : OutputPanel × List Effect :=
  match mapGet p.tabs id with
  | none => (p, [])
  | some tab =>
    ({ p with activeTabId := some id },
     [Effect.renderTabs, Effect.renderContentOf id] ++
       (match tab.setupCallback with
        | some cb => [Effect.scheduleCallback cb]
        | none => []))

end OutputPanel

/-- The empty-state markup `renderContent` writes when the tab is missing
or its content is empty. -/
def emptyStateHtml : String :=
  "\n                <div class=\"empty-state\">\n                    <i class=\"fa-regular fa-file-lines\"></i>\n                    <p>No content generated yet</p>\n                    <small>Run a research to see results here</small>\n                </div>\n            "

/-- The wrapping container `renderContent` puts around the rendered
content. -/
def wrapMarkdown (htmlContent : String) : String :=
  "\n            <div class=\"markdown-content\">\n                " ++ htmlContent ++
    "\n            </div>\n        "

/-- `htmlContent` computation: markdown-parse unless `window.marked` is
absent or the content matches the form-control regex. -/
def applyMarked (marked : Option (String → String)) (content : String) : String :=
  match marked with
  | some parse => if isHtmlFormContent content then content else parse content
  | none => content

/-- The innerHTML produced for one tab's content. -/
def renderTabContentHtml (marked : Option (String → String)) (content : String) : String :=
  if content = "" then emptyStateHtml
  else wrapMarkdown (applyMarked marked content)

/-- `renderContent(id)`: the innerHTML written to the content area. -/
def OutputPanel.renderContent (marked : Option (String → String)) (p : OutputPanel)
    (id : String) : String :=
  match mapGet p.tabs id with
  | none => emptyStateHtml
  | some tab => renderTabContentHtml marked tab.content

theorem startsWithCI_of_exact (p : List Char) :
    ∀ cs : List Char, startsWithExact p cs = true → startsWithCI p cs = true := by
  induction p with
  | nil => intro cs _; simp [startsWithCI]
  | cons a ps ih =>
    intro cs h
    cases cs with
    | nil => simp [startsWithExact] at h
    | cons c rest =>
      simp only [startsWithExact, Bool.and_eq_true, beq_iff_eq] at h
      obtain ⟨hac, hrest⟩ := h
      subst hac
      simp [startsWithCI, ih rest hrest]

theorem matchFormTagAt_of_textarea (cs : List Char)
    (h : matchTextareaLiteralAt cs = true) : matchFormTagAt cs = true := by
  cases cs with
  | nil => simp [matchTextareaLiteralAt, startsWithExact] at h
  | cons c rest =>
    simp only [matchTextareaLiteralAt, startsWithExact, Bool.and_eq_true, beq_iff_eq] at h
    obtain ⟨⟨hc, hex⟩, hb⟩ := h
    subst hc
    simp only [matchFormTagAt, formTagNames, List.any_cons, List.any_nil,
      Bool.or_eq_true, Bool.and_eq_true]
    refine Or.inr (Or.inr (Or.inr (Or.inr (Or.inl ⟨startsWithCI_of_exact _ _ hex, ?_⟩))))
    simpa using hb

theorem hasFormTag_of_textarea (cs : List Char)
    (h : hasTextareaLiteralBoundary cs = true) : hasFormTag cs = true := by
  induction cs with
  | nil => simp [hasTextareaLiteralBoundary] at h
  | cons c rest ih =>
    simp only [hasTextareaLiteralBoundary, Bool.or_eq_true] at h
    rcases h with h | h
    · simp [hasFormTag, matchFormTagAt_of_textarea _ h]
    · simp [hasFormTag, ih h]

/-- The original C2 reading fails: `"x <textareas"` contains the literal
substring `<textarea`, yet the regex's trailing word boundary rejects it,
so the content is passed through markdown parsing and the rendered HTML
differs from the stored content (even modulo the wrapper). -/
theorem textarea_substring_counterexample :
    containsSubstr "x <textareas" "<textarea" = true
    ∧ OutputPanel.renderContent (some (fun s => "<p>" ++ s ++ "</p>"))
        ⟨true, [("t", ⟨"T", "i", "x <textareas", "x <textareas", none⟩)], some "t"⟩ "t"
      = wrapMarkdown "<p>x <textareas</p>"
    ∧ wrapMarkdown "<p>x <textareas</p>" ≠ wrapMarkdown "x <textareas" := by
  refine ⟨by decide, by decide, by decide⟩

/-- C2 amended: a tab whose stored content contains a literal `<textarea`
occurrence followed by a word boundary (the next character, if any, is
not an ASCII letter, digit or underscore) is never passed through
markdown parsing: for every parser, the rendered HTML is the stored
content verbatim inside the wrapping container. -/
theorem textarea_content_not_markdown (marked : String → String) (p : OutputPanel)
    (id : String) (tab : Tab) (htab : mapGet p.tabs id = some tab)
    (h : textareaBoundaryContent tab.content = true) :
    OutputPanel.renderContent (some marked) p id = wrapMarkdown tab.content := by
  have hne : ¬ tab.content = "" := by
    intro he
    rw [he] at h
    exact absurd h (by decide)
  have hform : isHtmlFormContent tab.content = true := hasFormTag_of_textarea _ h
  simp [OutputPanel.renderContent, htab, renderTabContentHtml, hne, applyMarked, hform]

/-- Witness for the amended C2 on a concrete panel and parser. -/
theorem textarea_content_not_markdown_witness :
    textareaBoundaryContent "<textarea cols=3>" = true
    ∧ OutputPanel.renderContent (some (fun s => "<p>" ++ s ++ "</p>"))
        ⟨true, [("t", ⟨"T", "i", "<textarea cols=3>", "<textarea cols=3>", none⟩)], some "t"⟩ "t"
      = wrapMarkdown "<textarea cols=3>" :=
  ⟨by decide,
   textarea_content_not_markdown (fun s => "<p>" ++ s ++ "</p>")
     ⟨true, [("t", ⟨"T", "i", "<textarea cols=3>", "<textarea cols=3>", none⟩)], some "t"⟩
     "t" ⟨"T", "i", "<textarea cols=3>", "<textarea cols=3>", none⟩ (by decide) (by decide)⟩

/-- C3: `setContent` on an id absent from the tab map is a complete
no-op: the whole panel state (tab set, active tab, all stored contents)
is unchanged, no tab is created, and no effect (render or callback
scheduling) is produced. -/
theorem setContent_unregistered_noop (p : OutputPanel) (id content : String)
    (cb : Option Nat) (h : mapGet p.tabs id = none) :
    OutputPanel.setContent p id content cb = (p, []) := by
  simp [OutputPanel.setContent, h]

/-- Witness for C3 on a freshly constructed panel. -/
theorem setContent_unregistered_noop_witness :
    mapGet (OutputPanel.init true).tabs "missing" = none
    ∧ OutputPanel.setContent (OutputPanel.init true) "missing" "hello" none
        = (OutputPanel.init true, []) :=
  ⟨rfl, setContent_unregistered_noop (OutputPanel.init true) "missing" "hello" none rfl⟩

/-- C10: `activateTab` on an id absent from the tab map is a complete
no-op: the active tab, tab set and contents are unchanged, and no effect
— in particular no setup-callback scheduling — happens. -/
theorem activateTab_unregistered_noop (p : OutputPanel) (id : String)
    (h : mapGet p.tabs id = none) :
    OutputPanel.activateTab p id = (p, []) := by
  simp [OutputPanel.activateTab, h]

/-- Witness for C10 on a panel holding one other tab. -/
theorem activateTab_unregistered_noop_witness :
    mapGet (⟨true, [("t", ⟨"T", "i", "c", "c", some 7⟩)], some "t"⟩ : OutputPanel).tabs "u" = none
    ∧ OutputPanel.activateTab ⟨true, [("t", ⟨"T", "i", "c", "c", some 7⟩)], some "t"⟩ "u"
        = (⟨true, [("t", ⟨"T", "i", "c", "c", some 7⟩)], some "t"⟩, []) :=
  ⟨by decide,
   activateTab_unregistered_noop ⟨true, [("t", ⟨"T", "i", "c", "c", some 7⟩)], some "t"⟩ "u"
     (by decide)⟩

/-- The original C5 reading fails: `clear()` bails out before clearing
anything when the constructor's `getElementById` found no container, so
a panel built over a missing container that acquired a tab via `addTab`
still has that tab after `clear()`. -/
theorem clear_resets_counterexample :
    (OutputPanel.clear (OutputPanel.addTab (OutputPanel.init false) "a" "A" "i").1).1.tabs
      ≠ [] := by decide

/-- C5 amended: when the panel's container element exists, `clear()`
resets the panel to zero tabs with no active tab; in every state —
container present or not — `clear()` is a total function (never throws)
and is idempotent: clearing twice leaves the same state as clearing
once. -/
theorem clear_resets_and_idempotent (p : OutputPanel) :
    (p.container = true →
      (OutputPanel.clear p).1.tabs = [] ∧ (OutputPanel.clear p).1.activeTabId = none)
    ∧ (OutputPanel.clear (OutputPanel.clear p).1).1 = (OutputPanel.clear p).1 := by
  cases hc : p.container <;> simp [OutputPanel.clear, hc]

/-- Witness for the amended C5 on a panel with a container and one tab. -/
theorem clear_resets_and_idempotent_witness :
    ((OutputPanel.clear (OutputPanel.addTab (OutputPanel.init true) "a" "A" "i").1).1.tabs = []
      ∧ (OutputPanel.clear (OutputPanel.addTab (OutputPanel.init true) "a" "A" "i").1).1.activeTabId
          = none)
    ∧ (OutputPanel.clear
        (OutputPanel.clear (OutputPanel.addTab (OutputPanel.init true) "a" "A" "i").1).1).1
      = (OutputPanel.clear (OutputPanel.addTab (OutputPanel.init true) "a" "A" "i").1).1 :=
  ⟨(clear_resets_and_idempotent (OutputPanel.addTab (OutputPanel.init true) "a" "A" "i").1).1 rfl,
   (clear_resets_and_idempotent (OutputPanel.addTab (OutputPanel.init true) "a" "A" "i").1).2⟩

/-- The original C6 reading fails: a tab whose id is the empty string can
be the active tab, yet `addTab` tests `!this.activeTabId`, which treats
the empty string as "no active tab" — so adding a further tab steals the
active slot from it. -/
theorem addTab_active_counterexample :
    (OutputPanel.addTab (OutputPanel.init true) "" "A" "i").1.activeTabId = some ""
    ∧ mapGet (OutputPanel.addTab (OutputPanel.init true) "" "A" "i").1.tabs "" ≠ none
    ∧ (OutputPanel.addTab
        (OutputPanel.addTab (OutputPanel.init true) "" "A" "i").1 "x" "X" "j").1.activeTabId
      ≠ some "" := by
  refine ⟨by decide, by decide, by decide⟩

/-- C6 amended: `addTab` stores a tab with empty content (appending it at
the end when the id is new) and makes it the active tab exactly when the
current active id is JS-falsy (`null` or the empty string) — in
particular the first tab ever added becomes active; when a tab with a
non-empty id is active, the active tab is unchanged. -/
theorem addTab_spec (p : OutputPanel) (id label icon : String) :
    mapGet (OutputPanel.addTab p id label icon).1.tabs id = some ⟨label, icon, "", "", none⟩
    ∧ (mapGet p.tabs id = none →
        (OutputPanel.addTab p id label icon).1.tabs
          = p.tabs ++ [(id, ⟨label, icon, "", "", none⟩)])
    ∧ (truthyStr p.activeTabId = false →
        (OutputPanel.addTab p id label icon).1.activeTabId = some id)
    ∧ (truthyStr p.activeTabId = true →
        (OutputPanel.addTab p id label icon).1.activeTabId = p.activeTabId) := by
  refine ⟨?_, fun hfresh => ?_, fun hf => ?_, fun ht => ?_⟩
  · simp [OutputPanel.addTab, mapGet_mapSet]
  · simp [OutputPanel.addTab, mapSet_fresh _ _ _ hfresh]
  · simp [OutputPanel.addTab, hf]
  · simp [OutputPanel.addTab, ht]

/-- Witness for the amended C6: first added tab becomes active, a second
added tab leaves the (non-empty) active id alone. -/
theorem addTab_spec_witness :
    mapGet (OutputPanel.addTab (OutputPanel.init true) "a" "A" "i").1.tabs "a"
      = some ⟨"A", "i", "", "", none⟩
    ∧ (OutputPanel.addTab (OutputPanel.init true) "a" "A" "i").1.activeTabId = some "a"
    ∧ (OutputPanel.addTab
        (OutputPanel.addTab (OutputPanel.init true) "a" "A" "i").1 "b" "B" "j").1.activeTabId
      = some "a" :=
  ⟨(addTab_spec (OutputPanel.init true) "a" "A" "i").1,
   (addTab_spec (OutputPanel.init true) "a" "A" "i").2.2.1 (by decide),
   by
    have h := (addTab_spec (OutputPanel.addTab (OutputPanel.init true) "a" "A" "i").1
      "b" "B" "j").2.2.2 (by decide)
    rw [h]
    decide⟩

/-! ## App Controller research submission (`frontend/app.js`)

`handleResearch` embeds as a function of the (trimmed) name input, the
outcome of the `fetch` to `POST /api/research`, and the app state
(`currentProfileText`, the results-area visibility, the loading
affordance driven by `setLoading`, and the note textarea value).  DOM
surfacing — `alert`, the inline validation box, redirects — is recorded
as an event trace.  `setLoading(true/false)` is recorded both as trace
events and in the `loading` flag; the `finally` clause of the source
maps to the `loading := false` update on every non-early-return branch. -/

/-- One element of a Pydantic validation-error array, or an object
detail: its `msg` field (possibly absent or empty) and its JSON
serialization `JSON.stringify(e)`, carried abstractly. -/
structure ErrObj where
  msg : Option String
  json : String
deriving DecidableEq

/-- The shape of `err.detail` in a non-2xx response body. -/
inductive Detail where
  | dstr (s : String)
  | darr (items : List ErrObj)
  | dobj (o : ErrObj)
deriving DecidableEq

/-- JS truthiness of the `err.detail` value (`if (err.detail)`): an
empty string is falsy; arrays and objects are always truthy. -/
def detailTruthy : Detail → Bool
  | .dstr s => s != ""
  | .darr _ => true
  | .dobj _ => true

/-- `e.msg || JSON.stringify(e)`. -/
def msgOrJson (e : ErrObj) : String :=
  match e.msg with
  | some m => if m = "" then e.json else m
  | none => e.json

/-- The error normalization of `handleResearch` for a non-2xx response:
default `'Research failed'`, overridden when `err.detail` is truthy by
the string itself, the comma-space-joined per-element `msg`-or-JSON for
an array, or `msg`-or-JSON for an object. -/
def errorMessageOf (detail : Option Detail) : String :=
  match detail with
  | none => "Research failed"
  | some d =>
    if detailTruthy d then
      match d with
      | .dstr s => s
      | .darr items => String.intercalate ", " (items.map msgOrJson)
      | .dobj o => msgOrJson o
    else "Research failed"

/-- ASCII whitespace (JS `\s` restricted to the ASCII range used here). -/
def isJsSpace (c : Char) : Bool := c.isWhitespace

/-- `String.prototype.trim()` on the character list. -/
def trimChars (cs : List Char) : List Char :=
  ((cs.dropWhile isJsSpace).reverse.dropWhile isJsSpace).reverse

def jsTrim (s : String) : String := String.mk (trimChars s.toList)

/-- `message.replace(/PAT\s*/i, '')`: remove the first case-insensitive
occurrence of `pat` together with the whitespace run following it. -/
def stripPatCI (pat : List Char) : List Char → List Char
  | [] => []
  | c :: rest =>
    if startsWithCI pat (c :: rest) then
      ((c :: rest).drop pat.length).dropWhile isJsSpace
    else c :: stripPatCI pat rest

/-- The `errorText` cleanup of the validation branch of the catch
handler. -/
def errorTextOf (m : String) : String :=
  String.mk (stripPatCI "Value error,".toList (stripPatCI "Invalid input:".toList m.toList))

/-- The substring checks choosing between the inline validation box and
the generic alert. -/
def validationKeywords : List String :=
  ["Full name must include", "Name must contain", "Name cannot be empty", "Invalid input"]

def isValidationMessage (m : String) : Bool :=
  validationKeywords.any (fun k => containsSubstr m k)

/-- User-visible surfacing recorded by the submission handler. -/
inductive UiEvent where
  | setLoadingOn
  | setLoadingOff
  | namePrompt
  | redirectLogin
  | inlineValidationAlert (text : String)
  | errorAlert (text : String)
  | renderProfile (profile : String)
deriving DecidableEq

structure AppState where
  currentProfileText : String
  resultsHidden : Bool
  loading : Bool
  noteValue : String
deriving DecidableEq

/-- Body of a 2xx `POST /api/research` response, as used here. -/
structure ResearchData where
  profile : String
  fromCache : Bool
  cachedNote : Option String
deriving DecidableEq

/-- Outcome of the `fetch`: a thrown exception (network error or the
`Error` thrown after reading the body), a 401, another non-2xx with its
parsed `detail`, or success. -/
inductive FetchOutcome where
  | thrown (message : String)
  | unauthorized
  | failure (detail : Option Detail)
  | success (data : ResearchData)
deriving DecidableEq

/-- The catch branch of `handleResearch`: known validation messages go
to the inline box with prefixes stripped, everything else to
`alert('Error: ' + message)`. -/
def catchHandler (m : String) : UiEvent :=
  if isValidationMessage m then .inlineValidationAlert (errorTextOf m)
  else .errorAlert ("Error: " ++ m)

/-- `handleResearch()`.  The empty-name early return happens before
`setLoading(true)`; every later branch runs the `finally` clause. -/
def handleResearch (nameRaw : String) (outcome : FetchOutcome) (st : AppState) :
    AppState × List UiEvent :=
  if jsTrim nameRaw = "" then (st, [UiEvent.namePrompt])
  else
    let st1 : AppState := { st with loading := true, resultsHidden := true }
    match outcome with
    | .thrown m =>
      ({ st1 with loading := false }, [.setLoadingOn, catchHandler m, .setLoadingOff])
    | .unauthorized =>
      ({ st1 with loading := false }, [.setLoadingOn, .redirectLogin, .setLoadingOff])
    | .failure detail =>
      ({ st1 with loading := false },
       [.setLoadingOn, catchHandler (errorMessageOf detail), .setLoadingOff])
    | .success data =>
      ({ st1 with
          currentProfileText := data.profile,
          resultsHidden := false,
          noteValue := (match data.cachedNote with | some n => n | none => st1.noteValue),
          loading := false },
       [.setLoadingOn, .renderProfile data.profile, .setLoadingOff])

/-- C8: every run of `handleResearch` that sets the loading affordance
also clears it — on success, backend rejection, 401 redirect and thrown
exception alike — and ends with the loading flag unset. -/
theorem loading_cleared_on_all_paths (nameRaw : String) (outcome : FetchOutcome)
    (st : AppState)
    (hset : UiEvent.setLoadingOn ∈ (handleResearch nameRaw outcome st).2) :
    UiEvent.setLoadingOff ∈ (handleResearch nameRaw outcome st).2
    ∧ (handleResearch nameRaw outcome st).1.loading = false := by
  by_cases hn : jsTrim nameRaw = ""
  · simp [handleResearch, hn] at hset
  · cases outcome <;> simp [handleResearch, hn]

/-- Witness for C8 on a thrown-exception run. -/
theorem loading_cleared_on_all_paths_witness :
    UiEvent.setLoadingOn ∈ (handleResearch "John Doe" (.thrown "boom") ⟨"", false, false, ""⟩).2
    ∧ UiEvent.setLoadingOff ∈ (handleResearch "John Doe" (.thrown "boom") ⟨"", false, false, ""⟩).2
    ∧ (handleResearch "John Doe" (.thrown "boom") ⟨"", false, false, ""⟩).1.loading = false :=
  ⟨by decide,
   (loading_cleared_on_all_paths "John Doe" (.thrown "boom") ⟨"", false, false, ""⟩ (by decide)).1,
   (loading_cleared_on_all_paths "John Doe" (.thrown "boom") ⟨"", false, false, ""⟩ (by decide)).2⟩

/-- The original C4 reading fails on an empty-string `detail`: the claim
calls for the detail itself to be the normalized message and for exactly
that string to be surfaced, but `if (err.detail)` is falsy on `""`, so
the code normalizes to the default `'Research failed'` and surfaces it
behind an `Error: ` prefix. -/
theorem error_detail_counterexample :
    errorMessageOf (some (Detail.dstr "")) = "Research failed"
    ∧ (handleResearch "John Doe" (.failure (some (Detail.dstr ""))) ⟨"p", false, false, ""⟩).2
      = [.setLoadingOn, .errorAlert "Error: Research failed", .setLoadingOff]
    ∧ (handleResearch "John Doe" (.failure (some (Detail.dstr ""))) ⟨"p", false, false, ""⟩).2
      ≠ [.setLoadingOn, .errorAlert "", .setLoadingOff] := by
  refine ⟨by decide, by decide, by decide⟩

/-- Spec-style restatement of the amended normalization rule: the detail
itself when it is a nonempty string, the comma-space-joined
`msg`-or-JSON fields for an array, `msg`-or-JSON for an object, and the
default message when the detail is absent or the empty string. -/
def specNormalizeDetail (d : Option Detail) : String :=
  match d with
  | none => "Research failed"
  | some (.dstr s) => if s = "" then "Research failed" else s
  | some (.darr items) => String.intercalate ", " (items.map msgOrJson)
  | some (.dobj o) => msgOrJson o

/-- C4 amended: a non-2xx, non-401 research response is normalized per
`specNormalizeDetail`; the normalized message is surfaced once — inside
the inline validation box with known prefixes stripped when it contains
a validation keyword, otherwise in an alert prefixed with `Error: ` —
and the stored profile text (the local result state) is not mutated. -/
theorem error_normalization_and_surfacing (detail : Option Detail) (st : AppState)
    (nameRaw : String) (hn : ¬ jsTrim nameRaw = "") :
    errorMessageOf detail = specNormalizeDetail detail
    ∧ (handleResearch nameRaw (.failure detail) st).1.currentProfileText
        = st.currentProfileText
    ∧ (isValidationMessage (errorMessageOf detail) = true →
        (handleResearch nameRaw (.failure detail) st).2
          = [.setLoadingOn,
             .inlineValidationAlert (errorTextOf (errorMessageOf detail)),
             .setLoadingOff])
    ∧ (isValidationMessage (errorMessageOf detail) = false →
        (handleResearch nameRaw (.failure detail) st).2
          = [.setLoadingOn, .errorAlert ("Error: " ++ errorMessageOf detail), .setLoadingOff]) := by
  refine ⟨?_, ?_, fun hv => ?_, fun hv => ?_⟩
  · cases detail with
    | none => rfl
    | some d =>
      cases d with
      | dstr s =>
        by_cases hs : s = "" <;>
          simp [errorMessageOf, specNormalizeDetail, detailTruthy, hs]
      | darr items => rfl
      | dobj o => rfl
  · simp [handleResearch, hn]
  · simp [handleResearch, hn, catchHandler, hv]
  · simp [handleResearch, hn, catchHandler, hv]

/-- Witness for the amended C4 on the spec's Scenario B message. -/
theorem error_normalization_and_surfacing_witness :
    errorMessageOf (some (.dstr "Full name must include first and last name"))
      = "Full name must include first and last name"
    ∧ (handleResearch "John Doe"
        (.failure (some (.dstr "Full name must include first and last name")))
        ⟨"p", false, false, ""⟩).1.currentProfileText = "p"
    ∧ (handleResearch "John Doe"
        (.failure (some (.dstr "Full name must include first and last name")))
        ⟨"p", false, false, ""⟩).2
      = [.setLoadingOn,
         .inlineValidationAlert "Full name must include first and last name",
         .setLoadingOff] := by
  have h := error_normalization_and_surfacing
    (some (.dstr "Full name must include first and last name"))
    ⟨"p", false, false, ""⟩ "John Doe" (by decide)
  exact ⟨by decide, h.2.1, (h.2.2.1 (by decide)).trans (by decide)⟩
